import Mathlib

/-!
Verification of the Tsurphu calendrical/astronomical core against its
natural-language specification.

Shallow embedding conventions:
- Python floats are modelled as real numbers (exact arithmetic); `math.floor`
  becomes `Int.floor`, Python's float `%` (floored modulus, sign of the
  divisor) becomes `x - y * ⌊x / y⌋`.
- Python ints are modelled as `ℤ`.
- The process-wide constant `EPOCH_TSURPHU` read by the Henning backend is
  passed as an explicit parameter to the functions that read it.
- Effectful code (the Stellarium HTTP client) is embedded by passing the
  transport and the JSON parser as explicit function arguments; an exception
  raised `from e` becomes an error value carrying the message and the cause.
-/

namespace Tsurphu

/-! ### src/tsurphu/astro/coords.py -/

/-- Embedding of `coords.normalize_deg`:
`deg = deg % 360.0; return deg + 360.0 if deg < 0 else deg`.
Python's float `%` with positive divisor is the floored modulus
`deg - 360 * ⌊deg / 360⌋`. -/
def normalize_deg {α : Type*} [LinearOrderedField α] [FloorRing α] (deg : α) : α :=
  let d := deg - 360 * ⌊deg / 360⌋
  if d < 0 then d + 360 else d

/-- The spec's description of `normalize_deg` as a single expression: the
mathematical modulus `x mod 360`, yielding a value in `[0, 360)` (claim C10's
refinement target). -/
def normalize_deg_spec {α : Type*} [LinearOrderedField α] [FloorRing α] (x : α) : α :=
  x - 360 * ⌊x / 360⌋

/-- Embedding of `coords.mean_obliquity_deg` (IAU 2006 polynomial). -/
noncomputable def mean_obliquity_deg (jd : ℝ) : ℝ :=
  let T := (jd - 2451545.0) / 36525.0
  let eps_arcsec :=
    84381.406
      - 46.836769 * T
      - 0.0001831 * (T ^ 2)
      + 0.00200340 * (T ^ 3)
      - 5.76e-7 * (T ^ 4)
      - 4.34e-8 * (T ^ 5)
  eps_arcsec / 3600.0

/-- `math.radians`. -/
noncomputable def radians (x : ℝ) : ℝ := x * Real.pi / 180

/-- `math.degrees`. -/
noncomputable def degrees (x : ℝ) : ℝ := x * 180 / Real.pi

/-- `math.atan2 y x`, the angle of the point `(x, y)` in `(-π, π]`,
modelled as the complex argument. -/
noncomputable def atan2 (y x : ℝ) : ℝ := Complex.arg ⟨x, y⟩

/-- Embedding of `coords.equatorial_to_ecliptic`: rotate equatorial (RA/Dec,
degrees) to ecliptic lon/lat (degrees) using mean obliquity at `jd`; the
arcsine argument is clamped to `[-1, 1]` as in the source
(`max(-1.0, min(1.0, sin_beta))`). -/
noncomputable def equatorial_to_ecliptic (ra_deg dec_deg jd : ℝ) : ℝ × ℝ :=
  let ra := radians ra_deg
  let dec := radians dec_deg
  let eps := radians (mean_obliquity_deg jd)
  let sin_beta := Real.sin dec * Real.cos eps
      - Real.cos dec * Real.sin eps * Real.sin ra
  let sin_beta2 := max (-1 : ℝ) (min (1 : ℝ) sin_beta)
  let beta := Real.arcsin sin_beta2
  let y := Real.sin ra * Real.cos eps + Real.tan dec * Real.sin eps
  let x := Real.cos ra
  let lam := atan2 y x
  (normalize_deg (degrees lam), degrees beta)

/-! ### src/tsurphu/scripts/ephemeris_snapshot.py -/

/-- Result record of `compute_tithi` (the Python dict
`{"delta_deg": delta, "tithi": tithi}`). -/
structure TithiResult (α : Type*) where
  delta_deg : α
  tithi : ℤ

/-- Embedding of `ephemeris_snapshot.compute_tithi`:
`delta = normalize_deg(moon_lon - sun_lon); tithi = int(delta // 12.0) + 1`.
Python float `//` is floor division, so `int(delta // 12.0) = ⌊delta / 12⌋`. -/
def compute_tithi {α : Type*} [LinearOrderedField α] [FloorRing α]
    (moon_lon sun_lon : α) : TithiResult α :=
  let delta := normalize_deg (moon_lon - sun_lon)
  { delta_deg := delta, tithi := ⌊delta / 12⌋ + 1 }

/-! ### Basic facts about `normalize_deg` -/

section NormalizeLemmas

variable {α : Type*} [LinearOrderedField α] [FloorRing α]

lemma normalize_deg_spec_nonneg (x : α) : 0 ≤ normalize_deg_spec x := by
  have h := Int.sub_floor_div_mul_nonneg x (show (0:α) < 360 by norm_num)
  unfold normalize_deg_spec
  rw [mul_comm]
  exact h

lemma normalize_deg_spec_lt (x : α) : normalize_deg_spec x < 360 := by
  have h := Int.sub_floor_div_mul_lt x (show (0:α) < 360 by norm_num)
  unfold normalize_deg_spec
  rw [mul_comm]
  exact h

lemma normalize_deg_eq_spec (x : α) : normalize_deg x = normalize_deg_spec x := by
  unfold normalize_deg
  have h0 := normalize_deg_spec_nonneg x
  unfold normalize_deg_spec at h0
  simp only [not_lt.mpr h0, if_neg (not_lt.mpr h0)]
  rfl

lemma normalize_deg_nonneg (x : α) : 0 ≤ normalize_deg x := by
  rw [normalize_deg_eq_spec]; exact normalize_deg_spec_nonneg x

lemma normalize_deg_lt (x : α) : normalize_deg x < 360 := by
  rw [normalize_deg_eq_spec]; exact normalize_deg_spec_lt x

lemma normalize_deg_of_mem (x : α) (h0 : 0 ≤ x) (h1 : x < 360) :
    normalize_deg x = x := by
  rw [normalize_deg_eq_spec]
  unfold normalize_deg_spec
  have hfl : ⌊x / 360⌋ = 0 := by
    rw [Int.floor_eq_zero_iff]
    constructor
    · positivity
    · rw [div_lt_one (by norm_num : (0:α) < 360)]; exact h1
  rw [hfl]
  ring

end NormalizeLemmas

lemma degrees_arcsin_le (s : ℝ) : degrees (Real.arcsin s) ≤ 90 := by
  have h := Real.arcsin_le_pi_div_two s
  have hpi := Real.pi_pos
  unfold degrees
  rw [div_le_iff₀ hpi]
  nlinarith

lemma neg_le_degrees_arcsin (s : ℝ) : -90 ≤ degrees (Real.arcsin s) := by
  have h := Real.neg_pi_div_two_le_arcsin s
  have hpi := Real.pi_pos
  unfold degrees
  rw [le_div_iff₀ hpi]
  nlinarith

/-- Claim C6: `normalize_deg` is idempotent — `normalize_deg (normalize_deg x)
= normalize_deg x` for all real `x` — and `normalize_deg x` always lies in
`[0, 360)`. -/
theorem normalize_deg_idempotent_and_in_range (x : ℝ) :
    normalize_deg (normalize_deg x) = normalize_deg x ∧
    0 ≤ normalize_deg x ∧ normalize_deg x < 360 :=
  ⟨normalize_deg_of_mem _ (normalize_deg_nonneg x) (normalize_deg_lt x),
   normalize_deg_nonneg x, normalize_deg_lt x⟩

/-- Claim C10: for every real `x`, `normalize_deg x` equals the single
expression `x - 360 * ⌊x / 360⌋` (the mathematical modulus `x mod 360`, which
lies in `[0, 360)`); the branch adding 360 is never taken because the
intermediate remainder is never negative. -/
theorem normalize_deg_refines_floor_mod (x : ℝ) :
    normalize_deg x = normalize_deg_spec x ∧
    0 ≤ normalize_deg_spec x ∧ normalize_deg_spec x < 360 ∧
    ¬ (x - 360 * ⌊x / 360⌋ < 0) :=
  ⟨normalize_deg_eq_spec x, normalize_deg_spec_nonneg x, normalize_deg_spec_lt x,
   not_lt.mpr (normalize_deg_spec_nonneg x)⟩

/-- Claim C3: `compute_tithi` returns `delta_deg = normalize_deg (moon - sun)`
in `[0, 360)` and `tithi = ⌊delta / 12⌋ + 1` in `1..30`; `delta = 0` yields
tithi 1, and the moon leading the sun by exactly 180 degrees yields tithi 16. -/
theorem compute_tithi_correct (moon_lon sun_lon : ℝ) :
    (compute_tithi moon_lon sun_lon).delta_deg = normalize_deg (moon_lon - sun_lon) ∧
    0 ≤ (compute_tithi moon_lon sun_lon).delta_deg ∧
    (compute_tithi moon_lon sun_lon).delta_deg < 360 ∧
    (compute_tithi moon_lon sun_lon).tithi
      = ⌊(compute_tithi moon_lon sun_lon).delta_deg / 12⌋ + 1 ∧
    1 ≤ (compute_tithi moon_lon sun_lon).tithi ∧
    (compute_tithi moon_lon sun_lon).tithi ≤ 30 ∧
    ((compute_tithi moon_lon sun_lon).delta_deg = 0 →
      (compute_tithi moon_lon sun_lon).tithi = 1) ∧
    (moon_lon = sun_lon + 180 → (compute_tithi moon_lon sun_lon).tithi = 16) := by
  have hd : (compute_tithi moon_lon sun_lon).delta_deg
      = normalize_deg (moon_lon - sun_lon) := rfl
  have ht : (compute_tithi moon_lon sun_lon).tithi
      = ⌊normalize_deg (moon_lon - sun_lon) / 12⌋ + 1 := rfl
  have h0 : 0 ≤ normalize_deg (moon_lon - sun_lon) := normalize_deg_nonneg _
  have h1 : normalize_deg (moon_lon - sun_lon) < 360 := normalize_deg_lt _
  refine ⟨hd, by rw [hd]; exact h0, by rw [hd]; exact h1, by rw [ht, hd], ?_, ?_, ?_, ?_⟩
  · rw [ht]
    have : (0:ℤ) ≤ ⌊normalize_deg (moon_lon - sun_lon) / 12⌋ :=
      Int.floor_nonneg.mpr (by positivity)
    omega
  · rw [ht]
    have : ⌊normalize_deg (moon_lon - sun_lon) / 12⌋ < 30 := by
      rw [Int.floor_lt]
      push_cast
      linarith
    omega
  · intro hz
    rw [hd] at hz
    rw [ht, hz]
    norm_num
  · intro h180
    have : moon_lon - sun_lon = 180 := by rw [h180]; ring
    rw [ht, this, normalize_deg_of_mem (180:ℝ) (by norm_num) (by norm_num)]
    norm_num

/-- Instantiation of claim C3's conditional parts at concrete inputs:
`compute_tithi 180 0` has tithi 16 and `compute_tithi 0 0` has tithi 1. -/
theorem compute_tithi_correct_witness :
    (compute_tithi (180:ℝ) 0).tithi = 16 ∧ (compute_tithi (0:ℝ) 0).tithi = 1 := by
  constructor
  · exact (compute_tithi_correct 180 0).2.2.2.2.2.2.2 (by norm_num)
  · apply (compute_tithi_correct (0:ℝ) 0).2.2.2.2.2.2.1
    rw [(compute_tithi_correct (0:ℝ) 0).1]
    simpa using normalize_deg_of_mem (0:ℝ) le_rfl (by norm_num)

/-- Claim C7: for all inputs, `equatorial_to_ecliptic` returns a longitude in
`[0, 360)` and a latitude in `[-90, 90]` (the arcsine argument is clamped to
`[-1, 1]` in the source); as a Lean function it is deterministic and
side-effect free by construction. -/
theorem equatorial_to_ecliptic_range (ra_deg dec_deg jd : ℝ) :
    0 ≤ (equatorial_to_ecliptic ra_deg dec_deg jd).1 ∧
    (equatorial_to_ecliptic ra_deg dec_deg jd).1 < 360 ∧
    -90 ≤ (equatorial_to_ecliptic ra_deg dec_deg jd).2 ∧
    (equatorial_to_ecliptic ra_deg dec_deg jd).2 ≤ 90 :=
  ⟨normalize_deg_nonneg _, normalize_deg_lt _,
   neg_le_degrees_arcsin _, degrees_arcsin_le _⟩

/-! ### src/tsurphu/calendario/backend_henning.py -/

/-- Embedding of the dataclass `TibetanEpoch` of `backend_henning.py`:
`{name, du_tibetano, anio_tibetano, mes_lunar, dia_lunar, notes}`, all numeric
fields optional. -/
structure TibetanEpoch where
  name : String
  du_tibetano : Option ℝ
  anio_tibetano : Option ℤ
  mes_lunar : Option ℤ
  dia_lunar : Option ℤ
  notes : String := ""

/-- Embedding of the module-level constant `EPOCH_TSURPHU`: every numeric
field is `None` (the epoch is not yet calibrated). -/
def EPOCH_TSURPHU : TibetanEpoch :=
  { name := "Epoch Tsurphu-Henning (pendiente de fijar)"
    du_tibetano := none
    anio_tibetano := none
    mes_lunar := none
    dia_lunar := none
    notes := "Pendiente de fijar a partir de Henning y las tablas TCG." }

/-- Modelled from the spec: the `TibetanDate` output record of spec section 3,
restricted to the fields actually constructed by
`HenningBackend.from_du_tibetano`. The source class `TibetanDateBasic` lives
in `tsurphu/calendario/m2_cal.py`, which is not part of the provided sources;
its fields are taken from the keyword constructor call in
`backend_henning.py` (`du_tibetano`, `anio_tibetano`, `mes_lunar`,
`dia_lunar`, the last three optional). -/
structure TibetanDateBasic where
  du_tibetano : ℝ
  anio_tibetano : Option ℤ
  mes_lunar : Option ℤ
  dia_lunar : Option ℤ

/-- Embedding of `HenningBackend._dias_desde_epoch`; the global
`EPOCH_TSURPHU` the method reads is passed explicitly:
`if EPOCH_TSURPHU.du_tibetano is None: return 0.0` and otherwise
`du_tibetano - EPOCH_TSURPHU.du_tibetano`. -/
def dias_desde_epoch (epoch : TibetanEpoch) (du_tibetano : ℝ) : ℝ :=
  match epoch.du_tibetano with
  | none => 0.0
  | some r => du_tibetano - r

/-- Embedding of `HenningBackend._resolver_anio_mes_dia`: the current skeleton
always returns `(0, 0, 0)`. -/
def resolver_anio_mes_dia (_dias_desde_epoch : ℝ) : ℤ × ℤ × ℤ :=
  (0, 0, 0)

/-- Embedding of `HenningBackend.from_du_tibetano`: computes
`dias_desde_epoch`, resolves `(anio, mes, dia)`, and builds a
`TibetanDateBasic` where each of the three fields is `x if x != 0 else None`. -/
def from_du_tibetano (epoch : TibetanEpoch) (du_tibetano : ℝ) : TibetanDateBasic :=
  let dias := dias_desde_epoch epoch du_tibetano
  let amd := resolver_anio_mes_dia dias
  { du_tibetano := du_tibetano
    anio_tibetano := if amd.1 ≠ 0 then some amd.1 else none
    mes_lunar := if amd.2.1 ≠ 0 then some amd.2.1 else none
    dia_lunar := if amd.2.2 ≠ 0 then some amd.2.2 else none }

/-- Claim C1: with an uncalibrated epoch (`du_tibetano` field is `none`, as in
`EPOCH_TSURPHU`), `from_du_tibetano` returns a result whose year, month and
day fields are explicitly unresolved (`none`), never a plausible-looking
year 0 / month 0 / day 0 date. -/
theorem from_du_tibetano_unresolved_when_uncalibrated
    (epoch : TibetanEpoch) (du : ℝ) (_h : epoch.du_tibetano = none) :
    (from_du_tibetano epoch du).anio_tibetano = none ∧
    (from_du_tibetano epoch du).mes_lunar = none ∧
    (from_du_tibetano epoch du).dia_lunar = none :=
  ⟨rfl, rfl, rfl⟩

/-- Instantiation of claim C1 at the source's own uncalibrated
`EPOCH_TSURPHU` and the concrete input `du = 2451545`. -/
theorem from_du_tibetano_unresolved_when_uncalibrated_witness :
    EPOCH_TSURPHU.du_tibetano = none ∧
    (from_du_tibetano EPOCH_TSURPHU 2451545).anio_tibetano = none ∧
    (from_du_tibetano EPOCH_TSURPHU 2451545).mes_lunar = none ∧
    (from_du_tibetano EPOCH_TSURPHU 2451545).dia_lunar = none :=
  ⟨rfl, from_du_tibetano_unresolved_when_uncalibrated EPOCH_TSURPHU 2451545 rfl⟩

/-- Counterexample to claim C2 as stated: with the uncalibrated
`EPOCH_TSURPHU`, `_dias_desde_epoch` returns exactly `0.0` — the very value
the claim says it must not return — so a caller cannot distinguish "zero
elapsed days" from "epoch not calibrated". -/
theorem dias_desde_epoch_uncalibrated_returns_zero :
    EPOCH_TSURPHU.du_tibetano = none ∧
    dias_desde_epoch EPOCH_TSURPHU 2451545 = 0 := by
  constructor
  · rfl
  · show (0.0 : ℝ) = 0
    norm_num

/-- Amended claim C2: `_dias_desde_epoch` returns
`du - epoch.du_tibetano` when the epoch is calibrated, and returns `0.0` when
the epoch is uncalibrated — a value indistinguishable from a real distance of
zero elapsed days. -/
theorem dias_desde_epoch_amended (epoch : TibetanEpoch) (du : ℝ) :
    (∀ r : ℝ, epoch.du_tibetano = some r → dias_desde_epoch epoch du = du - r) ∧
    (epoch.du_tibetano = none → dias_desde_epoch epoch du = 0) := by
  constructor
  · intro r hr
    unfold dias_desde_epoch
    rw [hr]
  · intro hn
    unfold dias_desde_epoch
    rw [hn]
    norm_num

/-- Instantiation of the amended claim C2 at a calibrated epoch
(`du_tibetano = some 10`, input 12, distance 2) and at the source's
uncalibrated `EPOCH_TSURPHU` (result 0). -/
theorem dias_desde_epoch_amended_witness :
    dias_desde_epoch { EPOCH_TSURPHU with du_tibetano := some 10 } 12 = 12 - 10 ∧
    dias_desde_epoch EPOCH_TSURPHU 12 = 0 :=
  ⟨(dias_desde_epoch_amended { EPOCH_TSURPHU with du_tibetano := some 10 } 12).1 10 rfl,
   (dias_desde_epoch_amended EPOCH_TSURPHU 12).2 rfl⟩

/-- Claim C9: for every input `du`, the `TibetanDateBasic` returned by
`from_du_tibetano` carries the input unchanged in its `du_tibetano` field,
whether or not the epoch is calibrated. -/
theorem from_du_tibetano_preserves_du (epoch : TibetanEpoch) (du : ℝ) :
    (from_du_tibetano epoch du).du_tibetano = du := rfl

/-! ### src/tsurphu/cielo/m1_cielo.py -/

/-- Embedding of `m1_cielo.calcular_du` (standard Meeus Julian Day from a UTC
instant). The UTC datetime fields are passed directly; `segundo` is the real
value `second + microsecond / 1_000_000`. Python's `floor` is `Int.floor`,
and the month/year shift `if mes <= 2: año -= 1; mes += 12` is applied before
the century correction `B = 2 - A + floor(A / 4)` with `A = floor(año / 100)`. -/
def calcular_du {α : Type*} [LinearOrderedField α] [FloorRing α]
    (anio mes dia hora minuto : ℤ) (segundo : α) : α :=
  let frac_dia : α := ((hora : α) + ((minuto : α) + segundo / 60.0) / 60.0) / 24.0
  let d : α := (dia : α) + frac_dia
  let anio2 : ℤ := if mes ≤ 2 then anio - 1 else anio
  let mes2 : ℤ := if mes ≤ 2 then mes + 12 else mes
  let A : ℤ := ⌊(anio2 : α) / 100⌋
  let B : ℤ := 2 - A + ⌊(A : α) / 4⌋
  ((⌊(365.25 : α) * ((anio2 : α) + 4716)⌋ : ℤ) : α)
    + ((⌊(30.6001 : α) * ((mes2 : α) + 1)⌋ : ℤ) : α)
    + d + (B : α) - 1524.5

/-- The standard proleptic-Gregorian Julian Day algorithm exactly as the spec
words it (claim C4's refinement target): shift January/February into the
previous calendar year, apply the century correction
`B = 2 - floor(Y/100) + floor(Y/100/4)`, and combine
`floor(365.25*(Y+4716)) + floor(30.6001*(M+1))` with day-of-month plus the
time of day as a fractional day. -/
def jd_standard {α : Type*} [LinearOrderedField α] [FloorRing α]
    (anio mes dia hora minuto : ℤ) (segundo : α) : α :=
  let Y : ℤ := if mes ≤ 2 then anio - 1 else anio
  let M : ℤ := if mes ≤ 2 then mes + 12 else mes
  let B : ℤ := 2 - ⌊(Y : α) / 100⌋ + ⌊(Y : α) / 100 / 4⌋
  let frac : α := ((hora : α) + ((minuto : α) + segundo / 60) / 60) / 24
  ((⌊(365.25 : α) * ((Y : α) + 4716)⌋ : ℤ) : α)
    + ((⌊(30.6001 : α) * ((M : α) + 1)⌋ : ℤ) : α)
    + ((dia : α) + frac) + (B : α) - 1524.5

/-- Floor of an integer cast divided by a positive natural literal, as integer
division. -/
lemma floor_intCast_div_real (n : ℤ) (d : ℕ) :
    ⌊(n : ℝ) / (d : ℝ)⌋ = n / (d : ℤ) := by
  have h : ((n : ℚ) : ℝ) / ((d : ℚ) : ℝ) = (((n : ℚ) / (d : ℚ) : ℚ) : ℝ) := by
    push_cast
    ring
  rw [show ((n : ℝ) / (d : ℝ)) = (((n : ℚ) / (d : ℚ) : ℚ) : ℝ) by push_cast at h ⊢; exact h]
  rw [Rat.floor_cast, Rat.floor_intCast_div_natCast]

/-- The code's nested century floor `⌊⌊Y/100⌋ / 4⌋` agrees with the spec's
`⌊Y/100/4⌋`. -/
lemma nested_century_floor (Y : ℤ) :
    ⌊((⌊(Y : ℝ) / 100⌋ : ℤ) : ℝ) / 4⌋ = ⌊(Y : ℝ) / 100 / 4⌋ := by
  have h100 : ⌊(Y : ℝ) / 100⌋ = Y / 100 := by
    have h := floor_intCast_div_real Y 100
    norm_num at h
    exact h
  have h400 : ⌊(Y : ℝ) / 100 / 4⌋ = Y / 400 := by
    have heq : (Y : ℝ) / 100 / 4 = (Y : ℝ) / ((400 : ℕ) : ℝ) := by
      push_cast
      ring
    rw [heq, floor_intCast_div_real]
    norm_num
  have h4 : ⌊((Y / 100 : ℤ) : ℝ) / 4⌋ = (Y / 100) / 4 := by
    have h := floor_intCast_div_real (Y / 100) 4
    norm_num at h
    exact h
  rw [h100, h4, h400]
  omega

/-- Claim C4: `calcular_du` implements the standard proleptic-Gregorian Julian
Day algorithm word for word as the spec states it (January/February shifted
into the previous year, century correction
`B = 2 - ⌊Y/100⌋ + ⌊Y/100/4⌋`, and `⌊365.25 (Y+4716)⌋ + ⌊30.6001 (M+1)⌋`
combined with day-of-month plus the day fraction), and it reproduces standard
JD values exactly (hence well within 1e-6 day): noon of 2000-01-01 UTC gives
JD 2451545.0, 1957-10-04 19:26:24 UTC gives JD 2436116.31, and midnight of
1987-01-27 UTC gives JD 2446822.5. -/
theorem calcular_du_standard_jd :
    (∀ (anio mes dia hora minuto : ℤ) (segundo : ℝ),
      calcular_du anio mes dia hora minuto segundo
        = jd_standard anio mes dia hora minuto segundo) ∧
    calcular_du 2000 1 1 12 0 (0 : ℝ) = 2451545 ∧
    calcular_du 1957 10 4 19 26 (24 : ℝ) = 2436116.31 ∧
    calcular_du 1987 1 27 0 0 (0 : ℝ) = 2446822.5 := by
  refine ⟨?_, ?_, ?_, ?_⟩
  · intro anio mes dia hora minuto segundo
    simp only [calcular_du, jd_standard]
    rw [nested_century_floor]
    push_cast
    ring
  · norm_num [calcular_du]
  · norm_num [calcular_du]
  · norm_num [calcular_du]

/-! ### UTC instants, calendar days, and claim C5

`calcular_du` receives a Python `datetime` in UTC. We model such an instant by
its fields; "t + 1 day" (`timedelta(days=1)` in UTC) advances the Gregorian
date by one day and keeps the time of day. Python's `datetime` restricts
years to `1..9999` (MINYEAR/MAXYEAR) and uses the proleptic Gregorian
calendar. -/

/-- A UTC instant as the fields `calcular_du` reads from the `datetime`;
`segundo` is `second + microsecond / 1_000_000`. -/
structure Instant where
  anio : ℤ
  mes : ℤ
  dia : ℤ
  hora : ℤ
  minuto : ℤ
  segundo : ℝ

/-- Proleptic-Gregorian leap year, as `datetime` implements it. -/
def isLeap (y : ℤ) : Prop := (4 ∣ y ∧ ¬ (100 ∣ y)) ∨ 400 ∣ y

instance (y : ℤ) : Decidable (isLeap y) := by
  unfold isLeap
  exact inferInstance

/-- Length of Gregorian month `m` of year `y`. -/
def daysInMonth (y m : ℤ) : ℤ :=
  if m = 2 then (if isLeap y then 29 else 28)
  else if m = 4 ∨ m = 6 ∨ m = 9 ∨ m = 11 then 30
  else 31

/-- Validity of a Gregorian month/day pair (year bounds kept separate). -/
def DateValid (y m d : ℤ) : Prop :=
  1 ≤ m ∧ m ≤ 12 ∧ 1 ≤ d ∧ d ≤ daysInMonth y m

/-- The Gregorian day after `(y, m, d)`. -/
def nextD (y m d : ℤ) : ℤ × ℤ × ℤ :=
  if d < daysInMonth y m then (y, m, d + 1)
  else if m < 12 then (y, m + 1, 1)
  else (y + 1, 1, 1)

/-- The instant one civil day (`timedelta(days=1)`, UTC) after `t`: next
Gregorian date, same time of day. -/
def nextDay (t : Instant) : Instant :=
  let nd := nextD t.anio t.mes t.dia
  { t with anio := nd.1, mes := nd.2.1, dia := nd.2.2 }

/-- Seconds elapsed since midnight of `t`'s day. -/
noncomputable def secOfDay (t : Instant) : ℝ :=
  3600 * (t.hora : ℝ) + 60 * (t.minuto : ℝ) + t.segundo

/-- `calcular_du` applied to the fields of an instant. -/
noncomputable def du (t : Instant) : ℝ :=
  calcular_du t.anio t.mes t.dia t.hora t.minuto t.segundo

/-- A representable UTC `datetime`: valid Gregorian date with the year in
`1..9999`, hour in `0..23`, minute in `0..59`, and real seconds in
`[0, 60)` (seconds plus sub-second fraction). -/
def Instant.valid (t : Instant) : Prop :=
  1 ≤ t.anio ∧ t.anio ≤ 9999 ∧ DateValid t.anio t.mes t.dia ∧
  0 ≤ t.hora ∧ t.hora ≤ 23 ∧ 0 ≤ t.minuto ∧ t.minuto ≤ 59 ∧
  0 ≤ t.segundo ∧ t.segundo < 60

/-- Strict chronological order on Gregorian dates (lexicographic). -/
def DateLt (a b : ℤ × ℤ × ℤ) : Prop :=
  a.1 < b.1 ∨ (a.1 = b.1 ∧ (a.2.1 < b.2.1 ∨ (a.2.1 = b.2.1 ∧ a.2.2 < b.2.2)))

/-- Chronological order on instants: earlier date, or same date and no later
time of day. -/
def Instant.le (a b : Instant) : Prop :=
  DateLt (a.anio, a.mes, a.dia) (b.anio, b.mes, b.dia) ∨
  (a.anio = b.anio ∧ a.mes = b.mes ∧ a.dia = b.dia ∧ secOfDay a ≤ secOfDay b)

/-- Integer-valued skeleton of `calcular_du` at midnight, shifted by 1524.5:
all floors replaced by integer (floor) divisions. -/
def jdnInt (y m d : ℤ) : ℤ :=
  (1461 * ((if m ≤ 2 then y - 1 else y) + 4716)) / 4
    + (306001 * ((if m ≤ 2 then m + 12 else m) + 1)) / 10000 + d
    + (2 - (if m ≤ 2 then y - 1 else y) / 100
        + (if m ≤ 2 then y - 1 else y) / 100 / 4)

lemma floor_365 (n : ℤ) : ⌊(365.25 : ℝ) * (n : ℝ)⌋ = (1461 * n) / 4 := by
  have heq : (365.25 : ℝ) * (n : ℝ) = ((1461 * n : ℤ) : ℝ) / ((4 : ℕ) : ℝ) := by
    push_cast
    ring
  rw [heq, floor_intCast_div_real]
  norm_num

lemma floor_365_shift (n : ℤ) :
    ⌊(365.25 : ℝ) * ((n : ℝ) + 4716)⌋ = (1461 * (n + 4716)) / 4 := by
  rw [show ((n : ℝ) + 4716) = ((n + 4716 : ℤ) : ℝ) by push_cast; ring, floor_365]

lemma floor_306 (n : ℤ) :
    ⌊(30.6001 : ℝ) * ((n : ℝ) + 1)⌋ = (306001 * (n + 1)) / 10000 := by
  have heq : (30.6001 : ℝ) * ((n : ℝ) + 1)
      = ((306001 * (n + 1) : ℤ) : ℝ) / ((10000 : ℕ) : ℝ) := by
    push_cast
    ring
  rw [heq, floor_intCast_div_real]
  norm_num

lemma floor_div100 (n : ℤ) : ⌊(n : ℝ) / 100⌋ = n / 100 := by
  have h := floor_intCast_div_real n 100
  norm_num at h
  exact h

lemma floor_div4 (n : ℤ) : ⌊(n : ℝ) / 4⌋ = n / 4 := by
  have h := floor_intCast_div_real n 4
  norm_num at h
  exact h

/-- `calcular_du` at midnight is the integer skeleton minus 1524.5. -/
lemma calcular_du_midnight_eq (y m d : ℤ) :
    calcular_du y m d 0 0 (0 : ℝ) = ((jdnInt y m d : ℤ) : ℝ) - 1524.5 := by
  simp only [calcular_du, jdnInt, floor_365_shift, floor_306, floor_div100, floor_div4]
  push_cast
  ring

/-- `calcular_du` splits into its midnight value plus the day fraction. -/
lemma calcular_du_split (y m d h mi : ℤ) (s : ℝ) :
    calcular_du y m d h mi s
      = calcular_du y m d 0 0 (0 : ℝ)
        + (3600 * (h : ℝ) + 60 * (mi : ℝ) + s) / 86400 := by
  simp only [calcular_du]
  push_cast
  ring

lemma du_decomp (t : Instant) :
    du t = ((jdnInt t.anio t.mes t.dia : ℤ) : ℝ) - 1524.5 + secOfDay t / 86400 := by
  unfold du secOfDay
  rw [calcular_du_split, calcular_du_midnight_eq]

lemma daysInMonth_ge_28 (y m : ℤ) : 28 ≤ daysInMonth y m := by
  unfold daysInMonth
  split_ifs <;> omega

lemma daysInMonth_le_31 (y m : ℤ) : daysInMonth y m ≤ 31 := by
  unfold daysInMonth
  split_ifs <;> omega

/-- `jdnInt` on a packed date triple. -/
def jdnIntT (p : ℤ × ℤ × ℤ) : ℤ := jdnInt p.1 p.2.1 p.2.2

set_option maxHeartbeats 2000000 in
/-- Advancing one Gregorian day advances the integer day skeleton by exactly 1
(this is where month lengths, the February/March shift and the Gregorian leap
rule meet the Meeus formula). -/
lemma jdnIntT_nextD (y m d : ℤ) (hv : DateValid y m d) :
    jdnIntT (nextD y m d) = jdnInt y m d + 1 := by
  obtain ⟨hm1, hm2, hd1, hd2⟩ := hv
  unfold nextD
  split_ifs with h1 h2
  · show jdnInt y m (d + 1) = jdnInt y m d + 1
    unfold jdnInt
    split_ifs <;> omega
  · have hd : d = daysInMonth y m := le_antisymm hd2 (not_lt.mp h1)
    subst hd
    show jdnInt y (m + 1) 1 = jdnInt y m (daysInMonth y m) + 1
    by_cases hfeb : m = 2
    · subst hfeb
      unfold jdnInt daysInMonth isLeap
      by_cases h4 : (4:ℤ) ∣ y
      · obtain ⟨j, rfl⟩ := h4
        by_cases h25 : (25:ℤ) ∣ j
        · obtain ⟨i, rfl⟩ := h25
          by_cases h4i : (4:ℤ) ∣ i
          · obtain ⟨u, rfl⟩ := h4i
            split_ifs <;> omega
          · obtain ⟨u, v, hi, h1v, h3v⟩ : ∃ u v, i = 4 * u + v ∧ 1 ≤ v ∧ v ≤ 3 :=
              ⟨i / 4, i % 4, by omega, by omega, by omega⟩
            subst hi
            interval_cases v <;> split_ifs <;> omega
        · obtain ⟨u, w, hj, h1w, h24w⟩ : ∃ u w, j = 25 * u + w ∧ 1 ≤ w ∧ w ≤ 24 :=
            ⟨j / 25, j % 25, by omega, by omega, by omega⟩
          subst hj
          interval_cases w <;> split_ifs <;> omega
      · obtain ⟨j, r, hy, h1r, h3r⟩ : ∃ j r, y = 4 * j + r ∧ 1 ≤ r ∧ r ≤ 3 :=
          ⟨y / 4, y % 4, by omega, by omega, by omega⟩
        subst hy
        interval_cases r <;> split_ifs <;> omega
    · have hm11 : m ≤ 11 := by omega
      clear h1 hd1 hd2 hm2
      interval_cases m <;> unfold jdnInt daysInMonth isLeap <;> split_ifs <;> omega
  · have hm : m = 12 := by omega
    subst hm
    have hdim : daysInMonth y 12 = 31 := by
      unfold daysInMonth
      split_ifs <;> omega
    have hd : d = 31 := by
      rw [hdim] at hd2
      have := not_lt.mp h1
      rw [hdim] at this
      omega
    subst hd
    show jdnInt (y + 1) 1 1 = jdnInt y 12 31 + 1
    unfold jdnInt
    split_ifs <;> (try simp only [add_sub_cancel_right]) <;> omega

lemma nextD_valid (y m d : ℤ) (hv : DateValid y m d) :
    DateValid (nextD y m d).1 (nextD y m d).2.1 (nextD y m d).2.2 := by
  obtain ⟨hm1, hm2, hd1, hd2⟩ := hv
  unfold nextD
  split_ifs with h1 h2
  · show DateValid y m (d + 1)
    unfold DateValid
    omega
  · show DateValid y (m + 1) 1
    have h28 := daysInMonth_ge_28 y (m + 1)
    unfold DateValid
    omega
  · show DateValid (y + 1) 1 1
    have h28 := daysInMonth_ge_28 (y + 1) 1
    unfold DateValid
    omega

/-- Encoding of a date triple that is strictly monotone for chronological
order of valid dates; used as a termination measure. -/
def encDate (y m d : ℤ) : ℤ := 372 * y + 31 * m + d

lemma dateLt_enc (y m d yb mb db : ℤ)
    (hva : DateValid y m d) (hvb : DateValid yb mb db)
    (hlt : DateLt (y, m, d) (yb, mb, db)) :
    encDate y m d < encDate yb mb db := by
  obtain ⟨hm1, hm2, hd1, hd2⟩ := hva
  obtain ⟨hmb1, hmb2, hdb1, hdb2⟩ := hvb
  have h1 : d ≤ 31 := le_trans hd2 (daysInMonth_le_31 y m)
  have h2 : db ≤ 31 := le_trans hdb2 (daysInMonth_le_31 yb mb)
  unfold DateLt at hlt
  unfold encDate
  dsimp only at hlt
  omega

lemma nextD_enc_gt (y m d : ℤ) (hv : DateValid y m d) :
    encDate y m d < encDate (nextD y m d).1 (nextD y m d).2.1 (nextD y m d).2.2 := by
  obtain ⟨hm1, hm2, hd1, hd2⟩ := hv
  have h31 : daysInMonth y m ≤ 31 := daysInMonth_le_31 y m
  unfold nextD
  split_ifs with h1 h2
  · show encDate y m d < encDate y m (d + 1)
    unfold encDate
    omega
  · show encDate y m d < encDate y (m + 1) 1
    unfold encDate
    omega
  · show encDate y m d < encDate (y + 1) 1 1
    unfold encDate
    omega

/-- The successor of a valid date is no later than any valid date strictly
after it. -/
lemma nextD_reaches (y m d yb mb db : ℤ)
    (hva : DateValid y m d) (hvb : DateValid yb mb db)
    (hlt : DateLt (y, m, d) (yb, mb, db)) :
    nextD y m d = (yb, mb, db) ∨
      DateLt ((nextD y m d).1, (nextD y m d).2.1, (nextD y m d).2.2) (yb, mb, db) := by
  obtain ⟨hm1, hm2, hd1, hd2⟩ := hva
  obtain ⟨hmb1, hmb2, hdb1, hdb2⟩ := hvb
  unfold DateLt at hlt
  dsimp only at hlt
  unfold nextD
  split_ifs with h1 h2
  · show (y, m, d + 1) = (yb, mb, db) ∨ DateLt (y, m, d + 1) (yb, mb, db)
    unfold DateLt
    simp only [Prod.mk.injEq]
    rcases hlt with hy | ⟨rfl, hm | ⟨rfl, hd⟩⟩
    · omega
    · omega
    · omega
  · show (y, m + 1, 1) = (yb, mb, db) ∨ DateLt (y, m + 1, 1) (yb, mb, db)
    unfold DateLt
    simp only [Prod.mk.injEq]
    rcases hlt with hy | ⟨rfl, hm | ⟨rfl, hd⟩⟩
    · omega
    · omega
    · omega
  · show (y + 1, 1, 1) = (yb, mb, db) ∨ DateLt (y + 1, 1, 1) (yb, mb, db)
    unfold DateLt
    simp only [Prod.mk.injEq]
    rcases hlt with hy | ⟨rfl, hm | ⟨rfl, hd⟩⟩
    · omega
    · omega
    · omega

/-- Strictly later valid dates have a strictly larger integer day skeleton
(by at least one), by induction along `nextD`. -/
lemma jdnInt_strict_mono_aux :
    ∀ N : ℕ, ∀ y m d yb mb db : ℤ,
      DateValid y m d → DateValid yb mb db →
      DateLt (y, m, d) (yb, mb, db) →
      encDate yb mb db - encDate y m d ≤ (N : ℤ) →
      jdnInt y m d + 1 ≤ jdnInt yb mb db := by
  intro N
  induction N with
  | zero =>
    intro y m d yb mb db hva hvb hlt hN
    have := dateLt_enc y m d yb mb db hva hvb hlt
    omega
  | succ n ih =>
    intro y m d yb mb db hva hvb hlt hN
    have hstep := jdnIntT_nextD y m d hva
    rcases nextD_reaches y m d yb mb db hva hvb hlt with heq | hlt2
    · rw [heq] at hstep
      unfold jdnIntT at hstep
      dsimp only at hstep
      omega
    · have hvc := nextD_valid y m d hva
      have henc := nextD_enc_gt y m d hva
      have hencb := dateLt_enc _ _ _ yb mb db hvc hvb hlt2
      have hIH := ih _ _ _ yb mb db hvc hvb hlt2 (by push_cast at hN ⊢; omega)
      unfold jdnIntT at hstep
      omega

lemma secOfDay_nonneg (t : Instant) (hv : t.valid) : 0 ≤ secOfDay t := by
  obtain ⟨-, -, -, hh0, -, hm0, -, hs0, -⟩ := hv
  have ch : (0 : ℝ) ≤ (t.hora : ℝ) := by exact_mod_cast hh0
  have cm : (0 : ℝ) ≤ (t.minuto : ℝ) := by exact_mod_cast hm0
  unfold secOfDay
  linarith

lemma secOfDay_lt (t : Instant) (hv : t.valid) : secOfDay t < 86400 := by
  obtain ⟨-, -, -, -, hh1, -, hm1, -, hs1⟩ := hv
  have ch : (t.hora : ℝ) ≤ 23 := by exact_mod_cast hh1
  have cm : (t.minuto : ℝ) ≤ 59 := by exact_mod_cast hm1
  unfold secOfDay
  linarith

/-- Claim C5: for valid UTC instants, `calcular_du` advances by exactly 1.0
when the instant advances by one civil day (same time of day, next Gregorian
date — including across month and year boundaries), and it is monotonically
non-decreasing in chronological order. Equality is exact in the real-number
model, hence within 1e-9. -/
theorem calcular_du_day_step_and_monotone :
    (∀ t : Instant, t.valid → du (nextDay t) = du t + 1) ∧
    (∀ a b : Instant, a.valid → b.valid → Instant.le a b → du a ≤ du b) := by
  constructor
  · intro t hv
    have hva : DateValid t.anio t.mes t.dia := hv.2.2.1
    rw [du_decomp, du_decomp]
    have hsec : secOfDay (nextDay t) = secOfDay t := rfl
    have hj : jdnInt (nextDay t).anio (nextDay t).mes (nextDay t).dia
        = jdnInt t.anio t.mes t.dia + 1 := jdnIntT_nextD t.anio t.mes t.dia hva
    rw [hsec, hj]
    push_cast
    ring
  · intro a b hva hvb hle
    have hda : DateValid a.anio a.mes a.dia := hva.2.2.1
    have hdb : DateValid b.anio b.mes b.dia := hvb.2.2.1
    have hsa0 := secOfDay_nonneg a hva
    have hsa1 := secOfDay_lt a hva
    have hsb0 := secOfDay_nonneg b hvb
    rw [du_decomp, du_decomp]
    rcases hle with hlt | ⟨he1, he2, he3, hsec⟩
    · have henc := dateLt_enc _ _ _ _ _ _ hda hdb hlt
      have hj := jdnInt_strict_mono_aux
        (encDate b.anio b.mes b.dia - encDate a.anio a.mes a.dia).toNat
        a.anio a.mes a.dia b.anio b.mes b.dia hda hdb hlt
        (Int.self_le_toNat _)
      have hcast : ((jdnInt a.anio a.mes a.dia : ℤ) : ℝ) + 1
          ≤ ((jdnInt b.anio b.mes b.dia : ℤ) : ℝ) := by exact_mod_cast hj
      linarith
    · rw [he1, he2, he3]
      linarith

/-- Instantiation of claim C5 at concrete instants: one day after midnight of
2024-02-28 UTC is midnight of leap day 2024-02-29 with `du` exactly one
larger, and `du` does not decrease from 2023-12-31 23:59:59 UTC to
2024-01-01 00:00:00 UTC. -/
theorem calcular_du_day_step_and_monotone_witness :
    du (nextDay ⟨2024, 2, 28, 0, 0, 0⟩) = du ⟨2024, 2, 28, 0, 0, 0⟩ + 1 ∧
    du ⟨2023, 12, 31, 23, 59, 59⟩ ≤ du ⟨2024, 1, 1, 0, 0, 0⟩ := by
  constructor
  · have hv : Instant.valid ⟨2024, 2, 28, 0, 0, 0⟩ :=
      ⟨by norm_num, by norm_num, by unfold DateValid; decide, by norm_num, by norm_num,
       by norm_num, by norm_num, by norm_num, by norm_num⟩
    exact calcular_du_day_step_and_monotone.1 ⟨2024, 2, 28, 0, 0, 0⟩ hv
  · have hva : Instant.valid ⟨2023, 12, 31, 23, 59, 59⟩ :=
      ⟨by norm_num, by norm_num, by unfold DateValid; decide, by norm_num, by norm_num,
       by norm_num, by norm_num, by norm_num, by norm_num⟩
    have hvb : Instant.valid ⟨2024, 1, 1, 0, 0, 0⟩ :=
      ⟨by norm_num, by norm_num, by unfold DateValid; decide, by norm_num, by norm_num,
       by norm_num, by norm_num, by norm_num, by norm_num⟩
    have hle : Instant.le ⟨2023, 12, 31, 23, 59, 59⟩ ⟨2024, 1, 1, 0, 0, 0⟩ :=
      Or.inl (Or.inl (by norm_num))
    exact calcular_du_day_step_and_monotone.2 _ _ hva hvb hle

/-! ### src/tsurphu/integraciones/stellarium_rc.py

The HTTP client performs I/O; the embedding passes the transport (what
`urllib.request.urlopen` returns or raises, as an `Except`) and the JSON
parser (`json.loads`) as explicit function arguments. `StellariumRCError`
raised `from e` becomes an error record carrying the message and the cause
`e`. Percent-escaping inside `urlencode` is elided (string contents play no
role in the claims); key/value pairs are joined with `=` and `&` as the
encoding does. -/

/-- Embedding of the dataclass `StellariumRCConfig`. -/
structure StellariumRCConfig where
  host : String := "127.0.0.1"
  port : ℕ := 8090
  timeout_s : ℚ := 5 / 2

/-- Embedding of `StellariumRCConfig.base_url`:
`f"http://{host}:{port}".rstrip("/")`. -/
def base_url (c : StellariumRCConfig) : String :=
  ("http://" ++ c.host ++ ":" ++ toString c.port).dropRightWhile (fun ch => ch == '/')

/-- Embedding of `StellariumRemoteControlClient._url`:
`path = "/" + path.lstrip("/"); base_url + path`. -/
def rc_url (c : StellariumRCConfig) (path : String) : String :=
  base_url c ++ ("/" ++ path.dropWhile (fun ch => ch == '/'))

/-- `urllib.parse.urlencode` on already-stringified values, with
percent-escaping elided. -/
def urlencode (params : List (String × String)) : String :=
  String.intercalate "&" (params.map (fun p => p.1 ++ "=" ++ p.2))

/-- The URL `_get_json` requests: the path URL, plus `?`/`&` and the encoded
query when `params` is non-empty. -/
def getJsonUrl (c : StellariumRCConfig) (path : String)
    (params : List (String × String)) : String :=
  let u := rc_url c path
  if params.isEmpty then u
  else u ++ (if u.contains '?' then "&" else "?") ++ urlencode params

/-- The single error kind of the client (`StellariumRCError`), with the
original exception kept as the cause (`raise ... from e`). -/
structure RCError where
  message : String
  cause : Option String

/-- Embedding of `StellariumRemoteControlClient._get_json`: on a transport
failure `e`, raise `StellariumRCError` naming `base_url` with cause `e`; on a
JSON parse failure `e`, raise `StellariumRCError` naming the URL (and a
200-character excerpt of the raw body) with cause `e`; otherwise return the
parsed JSON. -/
def get_json {J : Type*} (c : StellariumRCConfig)
    (transport : String → Except String String)
    (parse : String → Except String J)
    (path : String) (params : List (String × String)) : Except RCError J :=
  let u := getJsonUrl c path params
  match transport u with
  | Except.error e =>
      Except.error
        { message := "No pude conectar con Stellarium RemoteControl en "
            ++ base_url c
            ++ ". Esta abierto Stellarium y activo el plugin RemoteControl? Detalle: "
            ++ e
          cause := some e }
  | Except.ok raw =>
      match parse raw with
      | Except.error e =>
          Except.error
            { message := "Respuesta no-JSON desde " ++ u ++ ": " ++ raw.take 200
              cause := some e }
      | Except.ok v => Except.ok v

/-- Embedding of `StellariumRemoteControlClient._post_form`: POST the
form-encoded body; on a transport failure `e`, raise `StellariumRCError`
naming the URL and the data with cause `e`; the response body is read and
discarded. -/
def post_form (c : StellariumRCConfig)
    (transport : String → String → Except String String)
    (path : String) (data : List (String × String)) : Except RCError Unit :=
  let u := rc_url c path
  match transport u (urlencode data) with
  | Except.error e =>
      Except.error
        { message := "POST fallo hacia " ++ u ++ " con data=" ++ urlencode data
            ++ ". Detalle: " ++ e
          cause := some e }
  | Except.ok _ => Except.ok ()

/-- The message substring relation: `sub` occurs inside `s`. -/
def ContainsSub (s sub : String) : Prop := ∃ pre post, s = pre ++ sub ++ post

lemma rc_url_decomp (c : StellariumRCConfig) (path : String) :
    ∃ suf, rc_url c path = base_url c ++ suf :=
  ⟨_, rfl⟩

lemma getJsonUrl_decomp (c : StellariumRCConfig) (path : String)
    (params : List (String × String)) :
    ∃ suf, getJsonUrl c path params = base_url c ++ suf := by
  unfold getJsonUrl rc_url
  split_ifs
  · exact ⟨_, rfl⟩
  · exact ⟨_, by rw [String.append_assoc, String.append_assoc]⟩

/-- Claim C8: every unreachable-server or non-parseable response surfaces as
the single error kind `StellariumRCError` (the only error constructor of the
client's result), with the original transport or parse exception preserved as
the cause and the target address (`base_url`) contained in the error
message — for GET requests (both failure points of `_get_json`) and POST
requests (`_post_form`). -/
theorem stellarium_error_single_kind {J : Type*} (c : StellariumRCConfig)
    (transport : String → Except String String)
    (postTransport : String → String → Except String String)
    (parse : String → Except String J)
    (path : String) (params data : List (String × String)) :
    (∀ e, transport (getJsonUrl c path params) = Except.error e →
      ∃ r : RCError, get_json c transport parse path params = Except.error r ∧
        r.cause = some e ∧ ContainsSub r.message (base_url c)) ∧
    (∀ raw e, transport (getJsonUrl c path params) = Except.ok raw →
      parse raw = Except.error e →
      ∃ r : RCError, get_json c transport parse path params = Except.error r ∧
        r.cause = some e ∧ ContainsSub r.message (base_url c)) ∧
    (∀ e, postTransport (rc_url c path) (urlencode data) = Except.error e →
      ∃ r : RCError, post_form c postTransport path data = Except.error r ∧
        r.cause = some e ∧ ContainsSub r.message (base_url c)) := by
  refine ⟨?_, ?_, ?_⟩
  · intro e he
    simp only [get_json, he]
    refine ⟨_, rfl, rfl, "No pude conectar con Stellarium RemoteControl en ",
      ". Esta abierto Stellarium y activo el plugin RemoteControl? Detalle: " ++ e, ?_⟩
    simp [String.append_assoc]
  · intro raw e ht hp
    simp only [get_json, ht, hp]
    obtain ⟨suf, hsuf⟩ := getJsonUrl_decomp c path params
    refine ⟨_, rfl, rfl, "Respuesta no-JSON desde ",
      suf ++ (": " ++ raw.take 200), ?_⟩
    simp [hsuf, String.append_assoc]
  · intro e he
    simp only [post_form, he]
    obtain ⟨suf, hsuf⟩ := rc_url_decomp c path
    refine ⟨_, rfl, rfl, "POST fallo hacia ",
      suf ++ (" con data=" ++ urlencode data ++ ". Detalle: " ++ e), ?_⟩
    simp [hsuf, String.append_assoc]

/-- Instantiation of claim C8 with the default configuration, a transport
that always fails, and a parser that always fails. -/
theorem stellarium_error_single_kind_witness :
    (∃ r : RCError,
      get_json {} (fun _ => Except.error "conexion rechazada")
          (fun _ => (Except.error "json invalido" : Except String Unit))
          "/api/main/status" []
        = Except.error r ∧ r.cause = some "conexion rechazada" ∧
        ContainsSub r.message (base_url {})) ∧
    (∃ r : RCError,
      post_form {} (fun _ _ => Except.error "timeout") "/api/main/time" []
        = Except.error r ∧ r.cause = some "timeout" ∧
        ContainsSub r.message (base_url {})) := by
  constructor
  · exact (stellarium_error_single_kind {} (fun _ => Except.error "conexion rechazada")
      (fun _ _ => Except.ok "")
      (fun _ => (Except.error "json invalido" : Except String Unit))
      "/api/main/status" [] []).1 "conexion rechazada" rfl
  · exact (stellarium_error_single_kind {} (fun _ => Except.ok "")
      (fun _ _ => Except.error "timeout")
      (fun _ => (Except.ok () : Except String Unit))
      "/api/main/time" [] []).2.2 "timeout" rfl

end Tsurphu
